import Mathlib

/-! Verification of the receipt-processor service (src/app/models.py and
src/app/main.py) against its specification.

Modelling conventions:
* Python strings are modelled as `List Char` (ordered character sequences);
  the character-class predicates (`isdigit`, `isalnum`, `strip`) are modelled
  on the ASCII range, which covers every string the claims exercise.
* Python `float` is IEEE-754 binary64.  All values reached by this program are
  nonnegative, so a float is modelled exactly as either a nonnegative dyadic
  rational (`PyFloat.finite`) or `PyFloat.inf`; `rnd53` is round-to-nearest,
  ties-to-even at 53 significant bits, and any rounded value of magnitude at
  least 2 ^ 1024 overflows to `inf`, exactly as CPython's `float(str)` and
  float multiplication behave.  `float.is_integer`, `%`, and `math.ceil` are
  exact on the rational value of the float; `math.ceil(inf)` raises
  `OverflowError`, modelled as `none`.
* A raised Python exception is modelled as `Option.none` / `Except.error`.
-/

namespace ReceiptProcessor

def chars (s : String) : List Char := s.data

/-- Python `str.strip()`: drop leading and trailing whitespace. -/
def pyStrip (s : List Char) : List Char :=
  ((s.dropWhile Char.isWhitespace).reverse.dropWhile Char.isWhitespace).reverse

/-- `sum(c.isalnum() for c in s)` from `calculate_points`. -/
def countAlnum (s : List Char) : ℤ :=
  ((s.filter Char.isAlphanum).length : ℤ)

def digVal (c : Char) : ℕ := c.toNat - 48

def digitsToNat (l : List Char) : ℕ := l.foldl (fun a c => 10 * a + digVal c) 0

def allDigits (l : List Char) : Bool := l.all Char.isDigit

/-- The validation pattern `\d+\.\d{2}` of `models.py`, returning the exact
cents value of the matched decimal string. -/
def matchMoney (s : List Char) : Option ℕ :=
  let ip := s.takeWhile (fun c => c != '.')
  match s.drop ip.length with
  | c0 :: d1 :: d2 :: [] =>
    if c0 == '.' && !ip.isEmpty && allDigits ip && d1.isDigit && d2.isDigit then
      some (100 * digitsToNat ip + 10 * digVal d1 + digVal d2)
    else none
  | _ => none

/-! ### The binary64 model -/

def log2aux : ℕ → ℕ → ℕ → ℕ
  | 0, _, acc => acc
  | f + 1, n, acc => if n ≤ 1 then acc else log2aux f (n / 2) (acc + 1)

/-- Floor of log base 2 (tail recursive so the kernel can evaluate it). -/
def natLog2 (n : ℕ) : ℕ := log2aux n n 0

/-- Powers of two as rationals, with integer exponent. -/
def pow2 : ℤ → ℚ
  | Int.ofNat n => mkRat (2 ^ n : ℕ) 1
  | Int.negSucc n => mkRat 1 (2 ^ (n + 1))

/-- Round a rational to the nearest integer, ties to even. -/
def rhe (x : ℚ) : ℤ :=
  let n := Rat.floor x
  let f := x - (n : ℚ)
  if Rat.blt f (mkRat 1 2) then n
  else if Rat.blt (mkRat 1 2) f then n + 1
  else if n % 2 = 0 then n else n + 1

/-- The exponent e with 2 ^ e ≤ q < 2 ^ (e + 1), for positive q. -/
def qexp (q : ℚ) : ℤ :=
  let e0 : ℤ := (natLog2 q.num.toNat : ℤ) - (natLog2 q.den : ℤ)
  if Rat.blt q (pow2 (e0 + 1)) then
    (if Rat.blt q (pow2 e0) then e0 - 1 else e0)
  else e0 + 1

/-- Round a nonnegative rational to 53 significant binary digits
(round-to-nearest, ties-to-even, unbounded exponent). -/
def rnd53 (q : ℚ) : ℚ :=
  if Rat.blt 0 q then
    let s := pow2 (qexp q - 52)
    (rhe (q / s) : ℚ) * s
  else 0

/-- A CPython float as reached by this program: a nonnegative finite value
(held as its exact rational value) or positive infinity. -/
inductive PyFloat where
  | finite (val : ℚ)
  | inf
deriving DecidableEq

/-- The IEEE-754 binary64 overflow threshold: rounded results of magnitude
at least 2 ^ 1024 become infinite. -/
def ovfl : ℚ := pow2 1024

def mkFloat (q : ℚ) : PyFloat :=
  let r := rnd53 q
  if Rat.blt r ovfl then PyFloat.finite r else PyFloat.inf

/-- The double nearest 0.2, i.e. the value of the literal `0.2` in
`calculate_points`. -/
def c02 : ℚ := rnd53 (mkRat 1 5)

/-- `float(s)` on a string with exact cents value `c`: the correctly rounded
double of c / 100, overflowing silently to `inf`. -/
def pyFloatOfCents (c : ℕ) : PyFloat := mkFloat (mkRat (c : ℤ) 100)

/-- Python float multiplication by the literal `0.2`. -/
def pyMul02 : PyFloat → PyFloat
  | PyFloat.inf => PyFloat.inf
  | PyFloat.finite v => mkFloat (v * c02)

/-- `float.is_integer` (false on `inf`). -/
def pyIsInteger : PyFloat → Bool
  | PyFloat.inf => false
  | PyFloat.finite v => v.den == 1

/-- `x % 0.25 == 0` on a float `x`.  `fmod` is exact on finite doubles;
`inf % 0.25` is `nan`, and `nan == 0.0` is `False`. -/
def pyModQuarterIsZero : PyFloat → Bool
  | PyFloat.inf => false
  | PyFloat.finite v => v - mkRat 1 4 * (Rat.floor (v / mkRat 1 4) : ℚ) == 0

/-- `math.ceil` on a float: exact on finite values, raises `OverflowError`
(modelled as `none`) on `inf`. -/
def pyCeil : PyFloat → Option ℤ
  | PyFloat.inf => none
  | PyFloat.finite v => some (Rat.ceil v)

/-! ### strptime / strftime -/

def splitSep (sep : Char) : List Char → List (List Char)
  | [] => [[]]
  | c :: rest =>
    match splitSep sep rest with
    | [] => [[c]]
    | h :: t => if c = sep then [] :: h :: t else (c :: h) :: t

/-- A 1- or 2-digit numeric field with value between `lo` and `hi`: the
language accepted by the CPython `_strptime` regexes for `%m`, `%d`, `%H`
and `%M`. -/
def parseNum2 (lo hi : ℕ) (l : List Char) : Option ℕ :=
  if (l.length == 1 || l.length == 2) && allDigits l then
    let v := digitsToNat l
    if lo ≤ v ∧ v ≤ hi then some v else none
  else none

/-- `%Y`: exactly four digits. -/
def parseYear4 (l : List Char) : Option ℕ :=
  if l.length == 4 && allDigits l then some (digitsToNat l) else none

def isLeapYear (y : ℕ) : Bool :=
  y % 4 == 0 && (y % 100 != 0 || y % 400 == 0)

def daysInMonth (y m : ℕ) : ℕ :=
  if m == 2 then (if isLeapYear y then 29 else 28)
  else if m == 4 || m == 6 || m == 9 || m == 11 then 30 else 31

/-- `datetime.strptime(s, "%Y" sep "%m" sep "%d")`: the full string must
match, and the `datetime` constructor enforces year ≥ 1 and calendar-valid
month/day. -/
def strptimeDate (sep : Char) (s : List Char) : Option (ℕ × ℕ × ℕ) :=
  match splitSep sep s with
  | [ys, ms, ds] =>
    match parseYear4 ys, parseNum2 1 12 ms, parseNum2 1 31 ds with
    | some y, some m, some d =>
      if 1 ≤ y ∧ d ≤ daysInMonth y m then some (y, m, d) else none
    | _, _, _ => none
  | _ => none

/-- `datetime.strptime(s, "%H:%M")`, reduced to the (hour, minute) pair. -/
def strptimeTime (s : List Char) : Option (ℕ × ℕ) :=
  match splitSep ':' s with
  | [hs, ms] =>
    match parseNum2 0 23 hs, parseNum2 0 59 ms with
    | some h, some mi => some (h, mi)
    | _, _ => none
  | _ => none

def natToCharsAux : ℕ → ℕ → List Char → List Char
  | 0, _, acc => acc
  | f + 1, n, acc => if n = 0 then acc else natToCharsAux f (n / 10) (Nat.digitChar (n % 10) :: acc)

/-- Decimal representation of a natural number, without padding. -/
def natToChars (n : ℕ) : List Char :=
  if n = 0 then ['0'] else natToCharsAux n n []

/-- glibc `%m`, `%d`: zero-padded to two digits. -/
def pad2 (n : ℕ) : List Char :=
  if n < 10 then ['0', Nat.digitChar n] else natToChars n

/-- `date.strftime("%Y-%m-%d")` on Linux/glibc: the year is printed as a
plain decimal number (NOT zero-padded to four digits), month and day are
zero-padded to two digits. -/
def strftimeDate (y m d : ℕ) : List Char :=
  natToChars y ++ '-' :: (pad2 m ++ '-' :: pad2 d)

/-! ### models.py -/

structure Item where
  shortDescription : List Char
  price : List Char
deriving DecidableEq

structure Receipt where
  retailer : List Char
  purchaseDate : List Char
  purchaseTime : List Char
  items : List Item
  total : List Char
deriving DecidableEq

/-- The `valid_date` validator of `models.py`: try `%Y-%m-%d` then
`%Y/%m/%d`, and re-format the parsed date with `strftime("%Y-%m-%d")`;
`none` models the raised `ValueError`. -/
def valid_date (v : List Char) : Option (List Char) :=
  match strptimeDate '-' v with
  | some (y, m, d) => some (strftimeDate y m d)
  | none =>
    match strptimeDate '/' v with
    | some (y, m, d) => some (strftimeDate y m d)
    | none => none

def msgMinLength : List Char := chars ("ensure this value has at least 1 characters")

def msgRetailer : List Char := chars ("Retailer cannot be empty or whitespace")

def msgDesc : List Char := chars ("shortDescription cannot be empty or whitespace")

def msgPrice : List Char := chars ("Price must be in XX.XX format")

def msgTotal : List Char := chars ("Total must be in XX.XX format")

def msgDate : List Char :=
  chars ("purchaseDate must be a valid date in YYYY-MM-DD or YYYY/MM/DD format")

def msgTime : List Char := chars ("purchaseTime must be a valid time in HH:MM format")

/-- `retailer`: `Field(min_length=1)` then the not-empty-or-whitespace
validator; at most one error is reported per field (pydantic v1 stops a
field's pipeline at its first failure). -/
def retailerCheck (v : List Char) : Option (List Char) :=
  if v.length < 1 then some msgMinLength
  else if pyStrip v = [] then some msgRetailer
  else none

def descCheck (v : List Char) : Option (List Char) :=
  if v.length < 1 then some msgMinLength
  else if pyStrip v = [] then some msgDesc
  else none

def priceCheck (v : List Char) : Option (List Char) :=
  if (matchMoney v).isSome then none else some msgPrice

def totalCheck (v : List Char) : Option (List Char) :=
  if (matchMoney v).isSome then none else some msgTotal

def dateCheck (v : List Char) : Option (List Char) :=
  if (valid_date v).isSome then none else some msgDate

def timeCheck (v : List Char) : Option (List Char) :=
  if (strptimeTime v).isSome then none else some msgTime

/-- One entry of `RequestValidationError.errors()`: a location tuple
(starting with the `"body"` wrapper) and a message. -/
structure FieldError where
  loc : List (List Char)
  msg : List Char
deriving DecidableEq

def optErr (path : List (List Char)) : Option (List Char) → List FieldError
  | some m => [FieldError.mk (chars ("body") :: path) m]
  | none => []

def itemErrors (i : ℕ) (it : Item) : List FieldError :=
  optErr [chars ("items"), natToChars i, chars ("shortDescription")] (descCheck it.shortDescription)
    ++ optErr [chars ("items"), natToChars i, chars ("price")] (priceCheck it.price)

def itemsErrorsFrom : ℕ → List Item → List FieldError
  | _, [] => []
  | i, it :: rest => itemErrors i it ++ itemsErrorsFrom (i + 1) rest

/-- All field-validator failures of a submission, in pydantic's field
declaration order; every field is checked independently (no short-circuit
across fields). -/
def fieldErrors (r : Receipt) : List FieldError :=
  optErr [chars ("retailer")] (retailerCheck r.retailer)
    ++ optErr [chars ("purchaseDate")] (dateCheck r.purchaseDate)
    ++ optErr [chars ("purchaseTime")] (timeCheck r.purchaseTime)
    ++ itemsErrorsFrom 0 r.items
    ++ optErr [chars ("total")] (totalCheck r.total)

/-- Constructing a `Receipt` model: collect every field error, and on full
success store the fields with `purchaseDate` replaced by the validator's
normalized return value. -/
def validateReceipt (r : Receipt) : Except (List FieldError) Receipt :=
  match fieldErrors r with
  | [] =>
    Except.ok
      (Receipt.mk r.retailer ((valid_date r.purchaseDate).getD r.purchaseDate)
        r.purchaseTime r.items r.total)
  | e :: rest => Except.error (e :: rest)

/-- Number of field-level violations of a submission: one per failing field,
counted field by field (specification-side counter for claim C4). -/
def itemViolations (it : Item) : ℕ :=
  (if (descCheck it.shortDescription).isSome then 1 else 0)
    + (if (priceCheck it.price).isSome then 1 else 0)

def countViolations (r : Receipt) : ℕ :=
  (if (retailerCheck r.retailer).isSome then 1 else 0)
    + (if (dateCheck r.purchaseDate).isSome then 1 else 0)
    + (if (timeCheck r.purchaseTime).isSome then 1 else 0)
    + (r.items.map itemViolations).sum
    + (if (totalCheck r.total).isSome then 1 else 0)

/-! ### main.py: calculate_points -/

def floatOfMoney (s : List Char) : Option PyFloat :=
  (matchMoney s).map pyFloatOfCents

/-- Rules 2 and 3: `+50` if `float(total).is_integer()`, `+25` if
`float(total) % 0.25 == 0`. -/
def totalPoints (total : List Char) : Option ℤ :=
  (floatOfMoney total).map (fun tf =>
    (if pyIsInteger tf then 50 else 0) + (if pyModQuarterIsZero tf then 25 else 0))

/-- Rule 4: `(len(items) // 2) * 5`. -/
def pairPoints (items : List Item) : ℤ :=
  (((items.length / 2) * 5 : ℕ) : ℤ)

/-- Rule 5, one loop iteration: if the trimmed description length is a
multiple of 3 (the code does NOT require it to be positive), add
`math.ceil(float(price) * 0.2)`. -/
def descPoints (it : Item) : Option ℤ :=
  if (pyStrip it.shortDescription).length % 3 = 0 then
    (floatOfMoney it.price).bind (fun pf => pyCeil (pyMul02 pf))
  else some 0

def itemsPoints : List Item → Option ℤ
  | [] => some 0
  | it :: rest => do
    let p ← descPoints it
    let q ← itemsPoints rest
    pure (p + q)

/-- Rule 6: `strptime(purchaseDate, "%Y-%m-%d")`, then `+6` on odd days;
a parse failure propagates as an exception. -/
def dayPoints (d : List Char) : Option ℤ :=
  (strptimeDate '-' d).map (fun x => if x.2.2 % 2 ≠ 0 then 6 else 0)

/-- Strict `datetime.time` comparison (lexicographic on (hour, minute)). -/
def timeLtB (h1 m1 h2 m2 : ℕ) : Bool :=
  Nat.blt h1 h2 || (h1 == h2 && Nat.blt m1 m2)

/-- Rule 7: `+10` if `time(14,0) < t < time(16,0)`. -/
def timePoints (t : List Char) : Option ℤ :=
  (strptimeTime t).map (fun x =>
    if timeLtB 14 0 x.1 x.2 && timeLtB x.1 x.2 16 0 then 10 else 0)

/-- `calculate_points` of `main.py`; `none` models an uncaught exception
escaping the function. -/
def calculate_points (r : Receipt) : Option ℤ := do
  let tp ← totalPoints r.total
  let ip ← itemsPoints r.items
  let dp ← dayPoints r.purchaseDate
  let hp ← timePoints r.purchaseTime
  pure (countAlnum r.retailer + tp + pairPoints r.items + ip + dp + hp)

/-! ### main.py: store and endpoints -/

abbrev Store := List (List Char × ℤ)

/-- Python dict lookup. -/
def dictGet : Store → List Char → Option ℤ
  | [], _ => none
  | (k, v) :: rest, key => if k = key then some v else dictGet rest key

/-- Python dict assignment `receipts[key] = v` (overwrite in place, else
append). -/
def dictSet : Store → List Char → ℤ → Store
  | [], key, v => [(key, v)]
  | (k, w) :: rest, key, v =>
    if k = key then (k, v) :: rest else (k, w) :: dictSet rest key v

inductive Body where
  | idBody (id : List Char)
  | pointsBody (points : ℤ)
  | errorList (msgs : List (List Char))
  | errorMsg (msg : List Char)
  | serverError
deriving DecidableEq

structure Response where
  status : ℕ
  body : Body
deriving DecidableEq

def notFoundMsg : List Char := chars ("No receipt found for that ID.")

def joinDot : List (List Char) → List Char
  | [] => []
  | [p] => p
  | p :: q :: rest => p ++ '.' :: joinDot (q :: rest)

/-- One line of the handler's list: `'.'.join(map(str, loc[1:]))` joined
with the message by `": "`. -/
def formatError (e : FieldError) : List Char :=
  joinDot (e.loc.drop 1) ++ ':' :: ' ' :: e.msg

/-- The `RequestValidationError` handler of `main.py`. -/
def validation_exception_handler (errs : List FieldError) : Response :=
  Response.mk 400 (Body.errorList (errs.map formatError))

/-- Body of `process_receipt` once FastAPI has produced a validated model:
score, store under the given fresh identifier, answer 200 with the id.  An
exception from `calculate_points` escapes before the store assignment runs
(the framework then answers 500). -/
def process_receipt (st : Store) (rid : List Char) (r : Receipt) : Store × Response :=
  match calculate_points r with
  | some p => (dictSet st rid p, Response.mk 200 (Body.idBody rid))
  | none => (st, Response.mk 500 Body.serverError)

/-- The `GET /receipts/{id}/points` handler. -/
def get_points (st : Store) (rid : List Char) : Response :=
  match dictGet st rid with
  | none => Response.mk 404 (Body.errorMsg notFoundMsg)
  | some p => Response.mk 200 (Body.pointsBody p)

/-- The `POST /receipts/process` request cycle: validation, then scoring and
storage. -/
def submitRequest (st : Store) (rid : List Char) (raw : Receipt) : Store × Response :=
  match validateReceipt raw with
  | Except.error errs => (st, validation_exception_handler errs)
  | Except.ok r => process_receipt st rid r

inductive Op where
  | submitOp (rid : List Char) (raw : Receipt)
  | retrieveOp (rid : List Char)

def applyOp (st : Store) : Op → Store × Response
  | Op.submitOp rid raw => submitRequest st rid raw
  | Op.retrieveOp rid => (st, get_points st rid)

def runTrace : Store → List Op → Store
  | st, [] => st
  | st, op :: rest => runTrace (applyOp st op).1 rest

def submitOk (raw : Receipt) : Bool :=
  match validateReceipt raw with
  | Except.ok r => (calculate_points r).isSome
  | Except.error _ => false

/-- Identifiers returned by the successful submissions of a trace. -/
def issuedIds : List Op → List (List Char)
  | [] => []
  | Op.submitOp rid raw :: rest => (if submitOk raw then [rid] else []) ++ issuedIds rest
  | Op.retrieveOp _ :: rest => issuedIds rest

/-! ### Specification-side definitions and concrete inputs -/

/-- Zero-pad a year to four digits: the `YYYY` of the spec's `YYYY-MM-DD`. -/
def pad4 (y : ℕ) : List Char :=
  List.replicate (4 - (natToChars y).length) '0' ++ natToChars y

/-- Modelled from the spec: the normalized `YYYY-MM-DD` form of a parsed
date, with a four-digit zero-padded year. -/
def specNormalDate (y m d : ℕ) : List Char :=
  pad4 y ++ '-' :: (pad2 m ++ '-' :: pad2 d)

/-- End-to-end example 1 of the spec. -/
def targetReceipt : Receipt :=
  Receipt.mk (chars ("Target")) (chars ("2022-01-01")) (chars ("13:01"))
    [Item.mk (chars ("Mountain Dew 12PK")) (chars ("6.49")),
     Item.mk (chars ("Emils Cheese Pizza")) (chars ("12.25")),
     Item.mk (chars ("Knorr Creamy Chicken")) (chars ("1.26")),
     Item.mk (chars ("Doritos Nacho Cheese")) (chars ("3.35")),
     Item.mk (chars ("   Klarbrunn 12-PK 12 FL OZ  ")) (chars ("12.00"))]
    (chars ("35.35"))

/-- A validation-passing item whose price (999999999999000.01, cents value
99999999999900001) makes `math.ceil(float(price) * 0.2)` land below the
exact `ceil(price_cents / 500)`. -/
def driftItem : Item := Item.mk (chars ("abc")) (chars ("999999999999000.01"))

/-- A validation-passing total of 10 ^ 309 dollars (zero fractional part)
whose `float` conversion overflows to `inf`. -/
def hugeTotal : List Char := '1' :: (List.replicate 309 '0' ++ chars (".00"))

/-- A fully valid receipt holding an item whose price (10 ^ 310 dollars)
overflows `float`, so the description-length rule calls `math.ceil(inf)`. -/
def overflowReceipt : Receipt :=
  Receipt.mk (chars ("A")) (chars ("2022-01-01")) (chars ("13:01"))
    [Item.mk (chars ("abc")) ('1' :: (List.replicate 310 '0' ++ chars (".00")))]
    (chars ("5.00"))

/-- A minimal valid receipt (1 point: the retailer letter). -/
def miniReceipt : Receipt :=
  Receipt.mk (chars ("A")) (chars ("2022-01-02")) (chars ("13:00")) [] (chars ("1.01"))

/-- A submission with exactly two field violations: a whitespace retailer and
a malformed item price. -/
def badReceipt : Receipt :=
  Receipt.mk (chars (" ")) (chars ("2022-01-01")) (chars ("13:01"))
    [Item.mk (chars ("Gatorade")) (chars ("12.5"))]
    (chars ("9.00"))

def traceW : List Op := [Op.submitOp (chars ("id-1")) miniReceipt]

def storeW : Store := [(chars ("k0"), 5)]

/-! ### Store lemmas -/

theorem dictGet_dictSet_self (st : Store) (k : List Char) (v : ℤ) :
    dictGet (dictSet st k v) k = some v := by
  induction st with
  | nil => simp [dictSet, dictGet]
  | cons hd t ih =>
    obtain ⟨k', w⟩ := hd
    by_cases hk : k' = k
    · subst hk; simp [dictSet, dictGet]
    · simp [dictSet, dictGet, hk, ih]

theorem dictGet_dictSet_ne (st : Store) (k key : List Char) (v : ℤ) (h : key ≠ k) :
    dictGet (dictSet st k v) key = dictGet st key := by
  induction st with
  | nil =>
    simp only [dictSet, dictGet]
    exact if_neg fun e => h e.symm
  | cons hd t ih =>
    obtain ⟨k', w⟩ := hd
    by_cases hk : k' = k
    · subst hk
      have hk' : k' ≠ key := fun e => h e.symm
      simp [dictSet, dictGet, hk']
    · by_cases hke : k' = key
      · subst hke; simp [dictSet, dictGet, hk]
      · simp [dictSet, dictGet, hk, hke, ih]

theorem length_dictSet (st : Store) (k : List Char) (v : ℤ) (h : dictGet st k = none) :
    (dictSet st k v).length = st.length + 1 := by
  induction st with
  | nil => simp [dictSet]
  | cons hd t ih =>
    obtain ⟨k', w⟩ := hd
    by_cases hk : k' = k
    · simp [dictGet, hk] at h
    · simp [dictGet, hk] at h
      simp [dictSet, hk, ih h]

theorem isSome_dictGet_dictSet (st : Store) (k key : List Char) (v : ℤ) :
    (dictGet (dictSet st k v) key).isSome ↔ key = k ∨ (dictGet st key).isSome := by
  by_cases h : key = k
  · subst h; simp [dictGet_dictSet_self]
  · simp [dictGet_dictSet_ne st k key v h, h]

theorem isSome_dictGet_runTrace (ops : List Op) :
    ∀ (st : Store) (key : List Char),
      (dictGet (runTrace st ops) key).isSome
        ↔ (dictGet st key).isSome ∨ key ∈ issuedIds ops := by
  induction ops with
  | nil => intro st key; simp [runTrace, issuedIds]
  | cons op rest ih =>
    intro st key
    cases op with
    | submitOp rid raw =>
      cases hv : validateReceipt raw with
      | error errs =>
        have hOk : submitOk raw = false := by simp [submitOk, hv]
        simp [runTrace, applyOp, submitRequest, hv, issuedIds, hOk, ih]
      | ok r =>
        cases hc : calculate_points r with
        | none =>
          have hOk : submitOk raw = false := by simp [submitOk, hv, hc]
          simp [runTrace, applyOp, submitRequest, hv, process_receipt, hc, issuedIds, hOk, ih]
        | some p =>
          have hOk : submitOk raw = true := by simp [submitOk, hv, hc]
          simp [runTrace, applyOp, submitRequest, hv, process_receipt, hc, issuedIds, hOk, ih,
            isSome_dictGet_dictSet]
          tauto
    | retrieveOp rid =>
      simp [runTrace, applyOp, issuedIds, ih]

/-! ### Claim theorems -/

/-- Claim C9: an identifier never issued by a successful submission is
answered 404 with the fixed error body, and an issued identifier is answered
200 with the stored score. -/
theorem retrieval_C9 : ∀ (ops : List Op) (key : List Char),
    (key ∉ issuedIds ops →
      get_points (runTrace [] ops) key = Response.mk 404 (Body.errorMsg notFoundMsg))
    ∧ (key ∈ issuedIds ops →
      ∃ p, dictGet (runTrace [] ops) key = some p
        ∧ get_points (runTrace [] ops) key = Response.mk 200 (Body.pointsBody p)) := by
  intro ops key
  have h := isSome_dictGet_runTrace ops [] key
  simp only [dictGet, Option.isSome_none, Bool.false_eq_true, false_or] at h
  constructor
  · intro hni
    have hnone : dictGet (runTrace [] ops) key = none := by
      cases hd : dictGet (runTrace [] ops) key with
      | none => rfl
      | some p => exact absurd (h.mp (by simp [hd])) hni
    simp [get_points, hnone]
  · intro hm
    obtain ⟨p, hp⟩ := Option.isSome_iff_exists.mp (h.mpr hm)
    exact ⟨p, hp, by simp [get_points, hp]⟩

set_option maxRecDepth 8000 in
/-- Claim C9 witness: on the one-submission trace `traceW`, a foreign
identifier gets the fixed 404 body and the issued identifier gets its
stored score with status 200. -/
theorem retrieval_C9_witness :
    (get_points (runTrace [] traceW) (chars ("id-2"))
      = Response.mk 404 (Body.errorMsg notFoundMsg))
    ∧ ∃ p, dictGet (runTrace [] traceW) (chars ("id-1")) = some p
        ∧ get_points (runTrace [] traceW) (chars ("id-1"))
          = Response.mk 200 (Body.pointsBody p) :=
  ⟨(retrieval_C9 traceW (chars ("id-2"))).1 (of_decide_eq_true (by with_unfolding_all rfl)),
   (retrieval_C9 traceW (chars ("id-1"))).2 (of_decide_eq_true (by with_unfolding_all rfl))⟩

/-- Claim C10: a retrieve call never modifies the store; a submit call with a
fresh identifier on a receipt that validates and scores adds exactly one
entry, keyed by that identifier, and the value stored under every other key
is unchanged by any submit call. -/
theorem frame_C10 : ∀ (st : Store) (rid : List Char) (raw r : Receipt) (p : ℤ)
    (key : List Char),
    ((applyOp st (Op.retrieveOp rid)).1 = st)
    ∧ (validateReceipt raw = Except.ok r → calculate_points r = some p →
        dictGet st rid = none →
        ((applyOp st (Op.submitOp rid raw)).1.length = st.length + 1
          ∧ dictGet (applyOp st (Op.submitOp rid raw)).1 rid = some p))
    ∧ (key ≠ rid →
        dictGet (applyOp st (Op.submitOp rid raw)).1 key = dictGet st key) := by
  intro st rid raw r p key
  refine ⟨rfl, ?_, ?_⟩
  · intro hv hc hfresh
    simp only [applyOp, submitRequest, hv, process_receipt, hc]
    exact ⟨length_dictSet st rid p hfresh, dictGet_dictSet_self st rid p⟩
  · intro hk
    cases hv : validateReceipt raw with
    | error errs => simp [applyOp, submitRequest, hv]
    | ok r' =>
      cases hc : calculate_points r' with
      | none => simp [applyOp, submitRequest, hv, process_receipt, hc]
      | some q =>
        simp [applyOp, submitRequest, hv, process_receipt, hc,
          dictGet_dictSet_ne st rid key q hk]

set_option maxRecDepth 8000 in
/-- Claim C10 witness: on the concrete store `storeW`, retrieval leaves the
store intact, submitting `miniReceipt` under a fresh identifier grows the
store by exactly one entry holding its score, and the previously stored key
keeps its value. -/
theorem frame_C10_witness :
    ((applyOp storeW (Op.retrieveOp (chars ("id-1")))).1 = storeW)
    ∧ ((applyOp storeW (Op.submitOp (chars ("id-1")) miniReceipt)).1.length
          = storeW.length + 1
        ∧ dictGet (applyOp storeW (Op.submitOp (chars ("id-1")) miniReceipt)).1
            (chars ("id-1")) = some 1)
    ∧ (dictGet (applyOp storeW (Op.submitOp (chars ("id-1")) miniReceipt)).1 (chars ("k0"))
        = dictGet storeW (chars ("k0"))) := by
  have h := frame_C10 storeW (chars ("id-1")) miniReceipt miniReceipt 1 (chars ("k0"))
  exact ⟨h.1,
    h.2.1 (by with_unfolding_all rfl) (by with_unfolding_all rfl) (by decide),
    h.2.2 (by decide)⟩

theorem length_optErr (path : List (List Char)) (o : Option (List Char)) :
    (optErr path o).length = if o.isSome then 1 else 0 := by
  cases o <;> simp [optErr]

theorem length_itemErrors (i : ℕ) (it : Item) :
    (itemErrors i it).length = itemViolations it := by
  simp [itemErrors, itemViolations, length_optErr]

theorem length_itemsErrorsFrom (l : List Item) :
    ∀ i, (itemsErrorsFrom i l).length = (l.map itemViolations).sum := by
  induction l with
  | nil => intro i; rfl
  | cons it rest ih => intro i; simp [itemsErrorsFrom, length_itemErrors, ih]

theorem length_fieldErrors (r : Receipt) :
    (fieldErrors r).length = countViolations r := by
  simp [fieldErrors, countViolations, length_optErr, length_itemsErrorsFrom]
  omega

/-- Claim C4: a submission with N field violations is rejected with exactly N
aggregated entries, each the dotted field path (with the top-level `body`
wrapper dropped) joined to the message by a colon, in a 400 response. -/
theorem validationErrors_C4 : ∀ (raw : Receipt) (n : ℕ),
    countViolations raw = n → 0 < n →
    ∃ errs, validateReceipt raw = Except.error errs
      ∧ errs.length = n
      ∧ validation_exception_handler errs
          = Response.mk 400 (Body.errorList (errs.map formatError))
      ∧ ∀ e ∈ errs, formatError e = joinDot (e.loc.drop 1) ++ ':' :: ' ' :: e.msg := by
  intro raw n hn hpos
  cases hE : fieldErrors raw with
  | nil =>
    rw [← hn, ← length_fieldErrors, hE] at hpos
    simp at hpos
  | cons e rest =>
    refine ⟨e :: rest, ?_, ?_, rfl, fun e' _ => rfl⟩
    · unfold validateReceipt
      rw [hE]
    · rw [← hE, length_fieldErrors, hn]

set_option maxRecDepth 8000 in
/-- Claim C4 witness: `badReceipt` (whitespace retailer, malformed item
price) yields exactly its two violations, formatted with the dotted paths
`retailer` and `items.0.price`. -/
theorem validationErrors_C4_witness :
    (countViolations badReceipt = 2 ∧ 0 < 2)
    ∧ (∃ errs, validateReceipt badReceipt = Except.error errs
        ∧ errs.length = 2
        ∧ validation_exception_handler errs
            = Response.mk 400 (Body.errorList (errs.map formatError))
        ∧ ∀ e ∈ errs, formatError e = joinDot (e.loc.drop 1) ++ ':' :: ' ' :: e.msg)
    ∧ (fieldErrors badReceipt).map formatError
        = [chars ("retailer: Retailer cannot be empty or whitespace"),
           chars ("items.0.price: Price must be in XX.XX format")] :=
  ⟨⟨by decide, by decide⟩,
   validationErrors_C4 badReceipt 2 (by decide) (by decide),
   by decide⟩

theorem parseNum2_bounds (lo hi : ℕ) (l : List Char) (v : ℕ)
    (hp : parseNum2 lo hi l = some v) : lo ≤ v ∧ v ≤ hi := by
  simp only [parseNum2] at hp
  split at hp
  · split at hp
    · exact (Option.some.inj hp) ▸ (by assumption)
    · exact absurd hp (by simp)
  · exact absurd hp (by simp)

theorem strptimeTime_bounds (t : List Char) (h m : ℕ)
    (hp : strptimeTime t = some (h, m)) : h ≤ 23 ∧ m ≤ 59 := by
  unfold strptimeTime at hp
  split at hp
  · split at hp
    · rename_i hh hm
      cases hp
      exact ⟨(parseNum2_bounds _ _ _ _ hh).2, (parseNum2_bounds _ _ _ _ hm).2⟩
    · exact absurd hp (by simp)
  · exact absurd hp (by simp)

theorem timeLtB_window (h m : ℕ) (hm : m ≤ 59) :
    (timeLtB 14 0 h m && timeLtB h m 16 0) = true
      ↔ (840 < 60 * h + m ∧ 60 * h + m < 960) := by
  simp only [timeLtB, Bool.and_eq_true, Bool.or_eq_true, Nat.blt_eq, beq_iff_eq]
  omega

/-- Claim C6: on any purchase time accepted by validation the afternoon rule
contributes exactly 10 points when the time is strictly between 14:00 and
16:00 (in minutes: 840 and 960), and exactly 0 otherwise. -/
theorem afternoonWindow_C6 : ∀ (t : List Char) (h m : ℕ),
    strptimeTime t = some (h, m) →
    ((timePoints t = some 10) ↔ (840 < 60 * h + m ∧ 60 * h + m < 960))
    ∧ (timePoints t = some 10 ∨ timePoints t = some 0) := by
  intro t h m hp
  have hmb : m ≤ 59 := (strptimeTime_bounds t h m hp).2
  have ht : timePoints t
      = some (if timeLtB 14 0 h m && timeLtB h m 16 0 then 10 else 0) := by
    simp [timePoints, hp]
  cases hb : (timeLtB 14 0 h m && timeLtB h m 16 0) with
  | true =>
    have hw := (timeLtB_window h m hmb).mp hb
    rw [hb, if_pos rfl] at ht
    exact ⟨⟨fun _ => hw, fun _ => ht⟩, Or.inl ht⟩
  | false =>
    have hw : ¬(840 < 60 * h + m ∧ 60 * h + m < 960) := fun hc => by
      have := (timeLtB_window h m hmb).mpr hc
      rw [hb] at this
      exact Bool.false_ne_true this
    rw [hb] at ht
    simp only [Bool.false_eq_true, if_false] at ht
    refine ⟨⟨fun h10 => ?_, fun hc => absurd hc hw⟩, Or.inr ht⟩
    rw [ht] at h10
    exact absurd (Option.some.inj h10) (by decide)

/-- Claim C6 witness: 15:00 earns the afternoon bonus, while the boundary
times 14:00 and 16:00 earn nothing. -/
theorem afternoonWindow_C6_witness :
    timePoints (chars ("15:00")) = some 10
    ∧ timePoints (chars ("14:00")) = some 0
    ∧ timePoints (chars ("16:00")) = some 0 :=
  ⟨((afternoonWindow_C6 (chars ("15:00")) 15 0 (by decide)).1).mpr (by decide),
   by decide, by decide⟩

/-- Claim C7: the item-pair rule contributes exactly 5 * floor(n / 2) points
for any list of n items, regardless of their contents or order. -/
theorem pairBonus_C7 : ∀ (items : List Item),
    pairPoints items = 5 * ((items.length / 2 : ℕ) : ℤ) := by
  intro items
  unfold pairPoints
  push_cast
  ring

set_option maxRecDepth 8000 in
/-- Claim C3: the Target example receipt passes validation unchanged and is
scored exactly 28 points. -/
theorem targetExample_C3 :
    validateReceipt targetReceipt = Except.ok targetReceipt
    ∧ calculate_points targetReceipt = some 28 := by
  constructor
  · with_unfolding_all rfl
  · with_unfolding_all rfl

set_option maxRecDepth 8000 in
/-- Claim C1 (refuting evaluation): for the validation-passing item
`driftItem` (price 999999999999000.01, trimmed description length 3) the
code's `math.ceil(float(price) * 0.2)` contributes 199999999999800 points,
while the exact `ceil(price_cents / 500)` — equal to the exact rational
`ceil(price * 0.2)` — is 199999999999801. -/
theorem itemCeil_C1 :
    matchMoney (chars ("999999999999000.01")) = some 99999999999900001
    ∧ descPoints driftItem = some 199999999999800
    ∧ ⌈(99999999999900001 : ℚ) / 500⌉ = 199999999999801
    ∧ ⌈(99999999999900001 : ℚ) / 100 * (1 / 5)⌉ = 199999999999801
    ∧ descPoints driftItem ≠ some ⌈(99999999999900001 : ℚ) / 500⌉ := by
  have h1 : matchMoney (chars ("999999999999000.01")) = some 99999999999900001 := by
    decide
  have h2 : descPoints driftItem = some 199999999999800 := by with_unfolding_all rfl
  have h3 : ⌈(99999999999900001 : ℚ) / 500⌉ = 199999999999801 := by
    rw [Int.ceil_eq_iff]
    norm_num
  have h4 : ⌈(99999999999900001 : ℚ) / 100 * (1 / 5)⌉ = 199999999999801 := by
    rw [show (99999999999900001 : ℚ) / 100 * (1 / 5) = (99999999999900001 : ℚ) / 500 by
      norm_num]
    exact h3
  refine ⟨h1, h2, h3, h4, ?_⟩
  rw [h2, h3]
  intro hc
  exact absurd (Option.some.inj hc) (by decide)

set_option maxRecDepth 8000 in
/-- Claim C2 (refuting evaluation): `hugeTotal` is a validation-passing total
with zero fractional part (cents value 10 ^ 311, divisible by 100), yet the
code awards neither the 50-point nor the 25-point bonus, because
`float(total)` overflows to `inf`. -/
theorem roundDollar_C2 :
    matchMoney hugeTotal = some (10 ^ 311)
    ∧ (10 ^ 311 : ℕ) % 100 = 0
    ∧ totalPoints hugeTotal = some 0
    ∧ totalPoints hugeTotal ≠ some 75 := by
  have h1 : matchMoney hugeTotal = some (10 ^ 311) := by decide
  have h3 : totalPoints hugeTotal = some 0 := by with_unfolding_all rfl
  refine ⟨h1, by norm_num, h3, ?_⟩
  rw [h3]
  intro hc
  exact absurd (Option.some.inj hc) (by decide)

set_option maxRecDepth 8000 in
/-- Claim C8 (refuting evaluation): `overflowReceipt` passes every validator
unchanged, yet `calculate_points` raises (`math.ceil` of an infinite float),
so the scoring engine is reachable with an exception on a validated
receipt. -/
theorem noRaise_C8 :
    validateReceipt overflowReceipt = Except.ok overflowReceipt
    ∧ calculate_points overflowReceipt = none := by
  constructor
  · with_unfolding_all rfl
  · with_unfolding_all rfl

theorem digVal_le_nine (c : Char) (h : c.isDigit = true) : digVal c ≤ 9 := by
  unfold Char.isDigit at h
  simp only [Bool.and_eq_true, decide_eq_true_eq, ge_iff_le] at h
  have h2 : c.val.toNat ≤ 57 := UInt32.toNat_le_of_le (by norm_num) h.2
  unfold digVal Char.toNat
  omega

theorem foldl_digits_lt (l : List Char) : ∀ acc, allDigits l = true →
    l.foldl (fun a c => 10 * a + digVal c) acc < 10 ^ l.length * (acc + 1) := by
  induction l with
  | nil =>
    intro acc _
    simp only [List.foldl_nil, List.length_nil, pow_zero, one_mul]
    omega
  | cons c t ih =>
    intro acc hall
    simp only [allDigits, List.all_cons, Bool.and_eq_true] at hall
    have hc := digVal_le_nine c hall.1
    have ht := ih (10 * acc + digVal c) hall.2
    simp only [List.foldl_cons, List.length_cons]
    calc t.foldl (fun a c => 10 * a + digVal c) (10 * acc + digVal c)
        < 10 ^ t.length * (10 * acc + digVal c + 1) := ht
      _ ≤ 10 ^ t.length * (10 * (acc + 1)) :=
          Nat.mul_le_mul_left _ (by omega)
      _ = 10 ^ (t.length + 1) * (acc + 1) := by ring

theorem digitsToNat_lt (l : List Char) (h : allDigits l = true) :
    digitsToNat l < 10 ^ l.length := by
  simpa [digitsToNat] using foldl_digits_lt l 0 h

theorem parseYear4_le (l : List Char) (y : ℕ) (hp : parseYear4 l = some y) :
    y ≤ 9999 := by
  simp only [parseYear4] at hp
  split at hp
  · rename_i hcond
    simp only [Bool.and_eq_true, beq_iff_eq] at hcond
    have hb := digitsToNat_lt l hcond.2
    rw [hcond.1] at hb
    cases hp
    omega
  · exact absurd hp (by simp)

theorem strptimeDate_year_le (sep : Char) (s : List Char) (y m d : ℕ)
    (hp : strptimeDate sep s = some (y, m, d)) : y ≤ 9999 := by
  unfold strptimeDate at hp
  split at hp
  · split at hp
    · rename_i hy hm hd
      split at hp
      · cases hp
        exact parseYear4_le _ _ hy
      · exact absurd hp (by simp)
    · exact absurd hp (by simp)
  · exact absurd hp (by simp)

theorem natToCharsAux_zero (f : ℕ) (acc : List Char) : natToCharsAux f 0 acc = acc := by
  cases f <;> simp [natToCharsAux]

theorem natToCharsAux_len : ∀ (f : ℕ), ∀ (n : ℕ) (acc : List Char), 0 < n → n ≤ f →
    (natToCharsAux f n acc).length = Nat.log 10 n + 1 + acc.length := by
  intro f
  induction f with
  | zero => intro n acc h1 h2; omega
  | succ f ih =>
    intro n acc h1 h2
    simp only [natToCharsAux]
    rw [if_neg (by omega)]
    by_cases h10 : n < 10
    · rw [Nat.div_eq_of_lt h10, natToCharsAux_zero]
      have hl : Nat.log 10 n = 0 := Nat.log_eq_zero_iff.mpr (Or.inl h10)
      simp [hl]
      omega
    · have hq : 0 < n / 10 := Nat.div_pos (by omega) (by norm_num)
      have hlt : n / 10 < n := Nat.div_lt_self h1 (by norm_num)
      rw [ih (n / 10) _ hq (by omega)]
      have hlog : Nat.log 10 (n / 10) = Nat.log 10 n - 1 := Nat.log_div_base 10 n
      have hpos : 0 < Nat.log 10 n := Nat.log_pos (by norm_num) (by omega)
      simp only [List.length_cons]
      omega

theorem natToChars_length (n : ℕ) (h : 0 < n) :
    (natToChars n).length = Nat.log 10 n + 1 := by
  unfold natToChars
  rw [if_neg (by omega)]
  simpa using natToCharsAux_len n n [] h (le_refl n)

theorem natToChars_len4 (y : ℕ) (h1 : 1000 ≤ y) (h2 : y ≤ 9999) :
    (natToChars y).length = 4 := by
  rw [natToChars_length y (by omega)]
  have e3 : (10 : ℕ) ^ 3 = 1000 := by norm_num
  have hl : Nat.log 10 y = 3 :=
    Nat.log_eq_of_pow_le_of_lt_pow (by rw [e3]; exact h1) (by norm_num; omega)
  omega

theorem pad4_eq_natToChars (y : ℕ) (h1 : 1000 ≤ y) (h2 : y ≤ 9999) :
    pad4 y = natToChars y := by
  unfold pad4
  rw [natToChars_len4 y h1 h2]
  simp

theorem strftime_eq_spec (y m d : ℕ) (h1 : 1000 ≤ y) (h2 : y ≤ 9999) :
    strftimeDate y m d = specNormalDate y m d := by
  unfold strftimeDate specNormalDate
  rw [pad4_eq_natToChars y h1 h2]

/-- Claim C5 (amended): a purchaseDate validates exactly when it parses under
the `%Y-%m-%d` or the `%Y/%m/%d` strptime format, and on success with parsed
year at least 1000 the stored value is the normalized zero-padded
`YYYY-MM-DD` form of the parsed date.  (For years below 1000 the stored year
is not zero-padded — see the counterexample.) -/
theorem dateValidation_C5 : ∀ (s : List Char),
    ((valid_date s).isSome ↔ ((strptimeDate '-' s).isSome ∨ (strptimeDate '/' s).isSome))
    ∧ (∀ y m d, strptimeDate '-' s = some (y, m, d) → 1000 ≤ y →
        valid_date s = some (specNormalDate y m d))
    ∧ (∀ y m d, strptimeDate '-' s = none → strptimeDate '/' s = some (y, m, d) →
        1000 ≤ y → valid_date s = some (specNormalDate y m d)) := by
  intro s
  refine ⟨?_, ?_, ?_⟩
  · cases h1 : strptimeDate '-' s with
    | some x =>
      obtain ⟨y, m, d⟩ := x
      simp [valid_date, h1]
    | none =>
      cases h2 : strptimeDate '/' s with
      | some x =>
        obtain ⟨y, m, d⟩ := x
        simp [valid_date, h1, h2]
      | none => simp [valid_date, h1, h2]
  · intro y m d hp hy
    have hle := strptimeDate_year_le '-' s y m d hp
    simp [valid_date, hp, strftime_eq_spec y m d hy hle]
  · intro y m d hn hp hy
    have hle := strptimeDate_year_le '/' s y m d hp
    simp [valid_date, hn, hp, strftime_eq_spec y m d hy hle]

/-- Claim C5 counterexample: the accepted purchaseDate "0999-12-31" is stored
as "999-12-31", not as its normalized YYYY-MM-DD form "0999-12-31". -/
theorem dateValidation_C5_counterexample :
    valid_date (chars ("0999-12-31")) = some (chars ("999-12-31"))
    ∧ chars ("999-12-31") ≠ specNormalDate 999 12 31
    ∧ specNormalDate 999 12 31 = chars ("0999-12-31") :=
  ⟨by decide, by decide, by decide⟩

/-- Claim C5 witness: both accepted formats store the normalized form for a
four-digit year. -/
theorem dateValidation_C5_witness :
    valid_date (chars ("2022/03/20")) = some (specNormalDate 2022 3 20)
    ∧ valid_date (chars ("2022-03-20")) = some (specNormalDate 2022 3 20) :=
  ⟨(dateValidation_C5 (chars ("2022/03/20"))).2.2 2022 3 20 (by decide) (by decide)
     (by decide),
   (dateValidation_C5 (chars ("2022-03-20"))).2.1 2022 3 20 (by decide) (by decide)⟩

end ReceiptProcessor
